import Mathlib

/-!
Verification development for the RandomWalkPython repository
(`walker.py`, `simulation.py`).

The Python source is shallowly embedded: Python floats are modelled as
exact rationals (`ℚ`), Python ints as `ℤ` (with `ℕ` for list lengths and
loop counters), raised `ValueError`s as `Except.error`, and the
possibly non-terminating obstacle-resampling loop in `Walker.walk` with
explicit fuel returning `Option` (`none` = the loop never returned).
Square roots are kept symbolic: where the source compares a Euclidean
norm `sqrt s` with a positive bound `r`, the embedding compares `s` with
`r * r`, which is equivalent for nonnegative operands; lemmas relate the
two forms through `Real.sqrt`.  The abstract method `Walker.step` —
whose concrete variants draw from an unseeded global random source and
assign the walker's position cursor to the value they return — is
modelled by an oracle stream `RandEnv.stepSeq` indexed by a draw
counter, as are `random.choice` and `random.random`.

Python reference semantics (needed only for the defensive-copy claim
about `get_path` / `get_current_position`) are modelled separately in
namespace `Mem` by an explicit heap of Python list objects.
-/

namespace RandomWalk

/-- Squared Euclidean norm of a vector, `Σ xᵢ²`.  The source computes
`np.linalg.norm(x)` = `sqrt (sqNorm x)`; every comparison against it in
this embedding is phrased on squares. -/
def sqNorm (v : List ℚ) : ℚ := (v.map (fun x => x * x)).sum

/-- Squared Euclidean distance between two points (used for the KDTree
range queries `query_ball_point`). -/
def sqDist (a b : List ℚ) : ℚ := sqNorm (List.zipWith (fun x y => x - y) a b)

/-- Dot product of two vectors (`np.dot`). -/
def dotProd (a b : List ℚ) : ℚ := (List.zipWith (fun x y => x * y) a b).sum

/-- Embedding of module-level `exited_radius(position, radius)` from
`walker.py`: raises when `radius <= 0`, else returns whether
`radius < np.linalg.norm(position)`.  The comparison `radius < sqrt s` is
embedded as `radius * radius < s`, equivalent since `radius > 0` holds
past the guard. -/
def exited_radius (position : List ℚ) (radius : ℚ) : Except String Bool :=
  if radius ≤ 0 then .error "Radius must be positive."
  else if radius * radius < sqNorm position then .ok true
  else .ok false

/-- Observer: did an embedded call raise (a `ValueError` in the source)? -/
def isError {α : Type} : Except String α → Bool
  | .error _ => true
  | .ok _ => false

/-- Value-level state of a `Walker` (`walker.py`).  The KDTree wrappers
around obstacles and gate placements are modelled by the underlying
point lists; `KDTree(xs) if xs else None` stores `none` both for `None`
and for an empty list, which the embedding mirrors by only ever
populating these fields with values coming from non-empty lists. -/
structure Walker where
  name : String
  restart_chance : ℚ
  restart_every : ℤ
  dim : ℕ
  magic_gates_placements : Option (List (List ℚ))
  magic_gates_destinations : Option (List (List ℚ))
  obstacles : Option (List (List ℚ))
  current_position : List ℚ
  path : List (List ℚ)

/-- The all-zero position `[0] * n_dim`. -/
def zeroVec (d : ℕ) : List ℚ := List.replicate d 0

/-- `Walker.hard_restart`: resets both the cursor and the trajectory to
the single-origin state. -/
def hard_restart (w : Walker) : Walker :=
  { w with current_position := zeroVec w.dim, path := [zeroVec w.dim] }

/-- `Walker.restart`: resets the cursor only; the trajectory is kept. -/
def restart_walker (w : Walker) : Walker :=
  { w with current_position := zeroVec w.dim }

/-- `Walker.times_crossed_y_axis_after(n)`: validates `n`, then counts,
over `i in range(n - 1)`, the pairs with `path[i][1] > 0 >= path[i+1][1]`
or `path[i][1] < 0 <= path[i+1][1]`.  The source's trailing
`type(n) is not int` check is vacuous here because `n : ℤ`. -/
def times_crossed_y_axis_after (w : Walker) (n : ℤ) : Except String ℕ :=
  if n < 0 then .error "Number of steps must be positive."
  else if (w.path.length : ℤ) ≤ n then
    .error "Number of steps must be less than the length of the path."
  else .ok ((List.range (n - 1).toNat).foldl (fun count i =>
      if (w.path.getD i []).getD 1 0 > 0 ∧ (w.path.getD (i + 1) []).getD 1 0 ≤ 0 then
        count + 1
      else if (w.path.getD i []).getD 1 0 < 0 ∧ 0 ≤ (w.path.getD (i + 1) []).getD 1 0 then
        count + 1
      else count) 0)

/-- Crossing predicate of the claim: the second coordinate goes from
strictly positive to `≤ 0` or from strictly negative to `≥ 0`. -/
@[reducible] def crossing (a b : ℚ) : Prop := (a > 0 ∧ b ≤ 0) ∨ (a < 0 ∧ 0 ≤ b)

instance (a b : ℚ) : Decidable (crossing a b) := by
  unfold crossing
  infer_instance

/-- `Walker.dist_from_axis_after(axis, n)`.  Checks run in source order
(the leading `type(n) is not int` check is vacuous since `n : ℤ`).  The
source's unit-length test `np.linalg.norm(axis) != 1` is embedded as
`sqNorm axis ≠ 1`, equivalent because `sqrt s = 1 ↔ s = 1` for `s ≥ 0`.
Past the guard `‖axis‖ = 1`, so the source's divisions by
`np.linalg.norm(new_axis)` divide by 1 and are omitted; the returned
value is the squared perpendicular distance (the source returns its
square root, an order-isomorphic quantity not examined by any claim). -/
def dist_from_axis_after (w : Walker) (axis : List ℚ) (n : ℤ) : Except String ℚ :=
  if axis.length ≠ w.dim then
    .error "Axis must be a vector of the same dimension as the walker."
  else if sqNorm axis ≠ 1 then .error "Axis must be a unit vector."
  else if n < 0 then .error "Number of steps must be positive."
  else if (w.path.length : ℤ) ≤ n then
    .error "Number of steps must be less than the length of the path."
  else
    let vector := w.path.getD n.toNat []
    let projection := dotProd vector axis
    let projection_vector := axis.map (fun x => projection * x)
    .ok (sqNorm (List.zipWith (fun x y => x - y) vector projection_vector))

/-- Truthiness observer for the `exited_radius` call inside the scan
loop of `exited_radius_at` (the loop only runs with a validated radius,
where `exited_radius` cannot raise). -/
def isOkTrue : Except String Bool → Bool
  | .ok true => true
  | _ => false

/-- The scan loop of `Walker.exited_radius_at`: first index whose point
satisfies `exited_radius`, else 0. -/
def exited_radius_at_from (radius : ℚ) : List (List ℚ) → ℕ → ℕ
  | [], _ => 0
  | p :: rest, i =>
      if isOkTrue (exited_radius p radius) then i
      else exited_radius_at_from radius rest (i + 1)

/-- `Walker.exited_radius_at(radius)`: validates the radius and the
non-emptiness of the trajectory, then scans from the start. -/
def exited_radius_at (w : Walker) (radius : ℚ) : Except String ℕ :=
  if radius ≤ 0 then .error "Radius must be positive."
  else if w.path.length = 0 then .error "Path is empty."
  else .ok (exited_radius_at_from radius w.path 0)

/-- Oracle streams standing for the unseeded global random source:
`stepSeq k` is the position produced (and assigned to the cursor) by the
`k`-th randomness draw of the concrete variant's `step()`; `choiceSeq`
feeds `random.choice`; `randSeq` feeds `random.random()`. -/
structure RandEnv where
  stepSeq : ℕ → List ℚ
  choiceSeq : ℕ → ℕ
  randSeq : ℕ → ℚ

/-- Truthiness of `self._obstacles.query_ball_point(pos, 1)`: some
obstacle lies within (closed) distance 1 of `pos`. -/
def hitsObstacle (obs : List (List ℚ)) (pos : List ℚ) : Bool :=
  obs.any (fun o => sqDist o pos ≤ 1)

/-- Truthiness of `self._magic_gates_placements.query_ball_point(pos, 0)`:
some gate placement coincides with `pos`. -/
def atGate (ps : List (List ℚ)) (pos : List ℚ) : Bool :=
  ps.any (fun g => sqDist g pos ≤ 0)

/-- The obstacle-avoidance `while` loop inside `Walker.walk`, with fuel:
while the candidate is within unit distance of an obstacle, resample by
calling `step()` again.  Returns the surviving candidate and the
advanced draw counter, or `none` when the fuel is exhausted (the source
loops forever in that case). -/
def dodge (env : RandEnv) (obs : List (List ℚ)) :
    ℕ → List ℚ → ℕ → Option (List ℚ × ℕ)
  | 0, pos, k => if hitsObstacle obs pos then none else some (pos, k)
  | fuel + 1, pos, k =>
      if hitsObstacle obs pos then dodge env obs fuel (env.stepSeq k) (k + 1)
      else some (pos, k)

/-- One iteration of the `for i in range(steps)` loop of `Walker.walk`:
step, dodge obstacles, teleport through gates, maybe restart, append
exactly one point.  After the iteration the cursor holds the last
`step()` result (gates replace only the appended value, not the cursor)
unless a restart moved both the cursor and the appended value to the
origin.  `random.random()` is drawn only when `i % restart_every == 0`,
matching the source's nesting.  The triple produced by the restart phase
is (new cursor, appended value, draw counter). -/
def walkIter (env : RandEnv) (w : Walker) (i k : ℕ) (fuel : ℕ) :
    Option (Walker × ℕ) :=
  let pos0 := env.stepSeq k
  (match w.obstacles with
    | some obs => dodge env obs fuel pos0 (k + 1)
    | none => some (pos0, k + 1)).bind (fun dres =>
  let pos1 := dres.1
  let gated : List ℚ × ℕ :=
    match w.magic_gates_placements, w.magic_gates_destinations with
    | some ps, some ds =>
        if ds ≠ [] ∧ atGate ps pos1 then
          (ds.getD (env.choiceSeq dres.2 % ds.length) [], dres.2 + 1)
        else (pos1, dres.2)
    | _, _ => (pos1, dres.2)
  let rres : List ℚ × List ℚ × ℕ :=
    if (i : ℤ) % w.restart_every = 0 then
      if env.randSeq gated.2 < w.restart_chance then
        (zeroVec w.dim, zeroVec w.dim, gated.2 + 1)
      else (pos1, gated.1, gated.2 + 1)
    else (pos1, gated.1, gated.2)
  some ({ w with current_position := rres.1, path := w.path ++ [rres.2.1] }, rres.2.2))

/-- The `for` loop of `Walker.walk`, iterating `walkIter` with the loop
index `i` and threading the draw counter. -/
def walkLoop (env : RandEnv) (fuel : ℕ) :
    ℕ → ℕ → ℕ → Walker → Option (Walker × ℕ)
  | 0, _, k, w => some (w, k)
  | m + 1, i, k, w =>
      match walkIter env w i k fuel with
      | none => none
      | some (w', k') => walkLoop env fuel m (i + 1) k' w'

/-- `Walker.walk(steps)`: raises when `steps <= 0`, else runs the loop.
`Except.ok none` means the obstacle-resampling loop never returned. -/
def walk (env : RandEnv) (fuel : ℕ) (w : Walker) (steps : ℤ) (k : ℕ) :
    Except String (Option (Walker × ℕ)) :=
  if steps ≤ 0 then .error "Number of steps must be positive."
  else .ok (walkLoop env fuel steps.toNat 0 k w)

/-- Value-level state of a `Simulation` (`simulation.py`). -/
structure Simulation where
  axis : List ℚ
  radius : ℚ
  times_to_run : ℤ
  walker : Walker
  num_of_steps : ℤ
  sims : List (List (List ℚ))

/-- `Simulation.__init__`: the six validation checks in source order; on
success the result collection `__sims` starts empty. -/
def mkSimulation (times_to_run num_of_steps : ℤ) (walker : Walker)
    (axis : List ℚ) (radius : ℚ) : Except String Simulation :=
  if times_to_run ≤ 0 then .error "Times to run must be greater than 0."
  else if num_of_steps ≤ 0 then .error "Number of steps must be greater than 0."
  else if radius ≤ 0 then .error "Radius to check must be greater than 0."
  else if axis.length = 0 then .error "Axis to check must not be empty."
  else if axis.length ≠ walker.dim then
    .error "Axis to check must be of the same length as the number of dimensions."
  else if walker.restart_every > num_of_steps then
    .error "Number of steps must be greater than or equal to the restart-every value."
  else .ok { axis := axis, radius := radius, times_to_run := times_to_run,
             walker := walker, num_of_steps := num_of_steps, sims := [] }

/-- `Simulation.get_times_run()`: the number of recorded trajectories. -/
def get_times_run (s : Simulation) : ℕ := s.sims.length

/-- The trial loop of `Simulation.run()`: hard-restart the walker, walk
`num_of_steps`; if `walk` raises, return early keeping partial results;
after a successful trial append a copy of the trajectory.  `none` means
some trial's obstacle loop never returned. -/
def runLoop (env : RandEnv) (fuel : ℕ) :
    ℕ → ℕ → Simulation → Option Simulation
  | 0, _, s => some s
  | m + 1, k, s =>
      match walk env fuel (hard_restart s.walker) s.num_of_steps k with
      | .error _ => some { s with walker := hard_restart s.walker }
      | .ok none => none
      | .ok (some (w', k')) =>
          runLoop env fuel m k' { s with walker := w', sims := s.sims ++ [w'.path] }

/-- `Simulation.run()`: `times_to_run` trials. -/
def run (env : RandEnv) (fuel : ℕ) (s : Simulation) : Option Simulation :=
  runLoop env fuel s.times_to_run.toNat 0 s

/-- The accumulation step of `get_avg_path` for one recorded trajectory:
`for i in range(len(sim)): for j in range(dim): avg_path[i][j] += sim[i][j]`.
Accumulator entries have exactly `dim` coordinates, so the inner loop is
componentwise addition; recorded points also carry exactly `dim`
coordinates, and recorded trajectories are never longer than the
accumulator in any reachable state (`steps + 1 ≤ 2 * steps` for
`steps ≥ 1`) — a longer one would raise `IndexError` in the source,
while this embedding leaves the accumulator unchanged past its end. -/
def addInto : List (List ℚ) → List (List ℚ) → List (List ℚ)
  | acc, [] => acc
  | [], _ :: _ => []
  | pt :: acc, sp :: sim => List.zipWith (fun x y => x + y) pt sp :: addInto acc sim

/-- `Simulation.get_avg_path()`.  The guard tests the *walker's* current
trajectory length, not the result collection.  The source then
initializes the accumulator with `num_of_steps` zero points TWICE (the
initialization loop appears twice verbatim), sums each non-empty
recorded trajectory in, and divides every entry by `len(self.__sims)`
(a division that raises `ZeroDivisionError` in Python when no trial was
recorded; `ℚ` division by zero yields 0 here — unreachable after a
completed `run`). -/
def get_avg_path (s : Simulation) : Except String (List (List ℚ)) :=
  if s.walker.path.length ≤ 1 then .error "No simulations have been run."
  else
    let d := s.walker.dim
    let init := List.replicate s.num_of_steps.toNat (List.replicate d (0 : ℚ))
             ++ List.replicate s.num_of_steps.toNat (List.replicate d (0 : ℚ))
    let summed := s.sims.foldl (fun acc sim => if sim ≠ [] then addInto acc sim else acc) init
    .ok (summed.map (fun pt => pt.map (fun x => x / (s.sims.length : ℚ))))

/-- A sample freshly-constructed two-dimensional walker: the state
`Walker.__init__` leaves behind for name "A", `n_dim = 2`, no gates, no
obstacles, `restart_chance = 0`, `restart_every = 1`. -/
def sampleWalker : Walker :=
  { name := "A", restart_chance := 0, restart_every := 1, dim := 2,
    magic_gates_placements := none, magic_gates_destinations := none,
    obstacles := none, current_position := zeroVec 2, path := [zeroVec 2] }

/-- A sample randomness oracle: every `step()` lands on `(1, 0)`, every
`random.random()` draw is 0. -/
def sampleEnv : RandEnv :=
  { stepSeq := fun _ => [1, 0], choiceSeq := fun _ => 0, randSeq := fun _ => 0 }

/-- A walker whose recorded trajectory leaves the unit disc at index 1. -/
def escapingWalker : Walker :=
  { sampleWalker with current_position := [3, 4], path := [[0, 0], [3, 4]] }

/-- A walker whose trajectory's second coordinate crosses zero twice
among its first three points. -/
def crossingWalker : Walker :=
  { sampleWalker with current_position := [0, 3], path := [[0, 1], [0, -1], [0, 2], [0, 3]] }

/-- The state `sampleWalker` reaches after `walk(2)` under `sampleEnv`. -/
def sampleWalked : Walker :=
  { sampleWalker with current_position := [1, 0], path := [[0, 0], [1, 0], [1, 0]] }

/-- The state `Simulation(1, 1, sampleWalker, [0, 1], 1)` constructs. -/
def sampleSim : Simulation :=
  { axis := [0, 1], radius := 1, times_to_run := 1, walker := sampleWalker,
    num_of_steps := 1, sims := [] }

/-- The state `sampleSim` reaches after `run()` under `sampleEnv`: one
recorded trajectory of `num_of_steps + 1` points. -/
def sampleSimRun : Simulation :=
  { sampleSim with
    walker := { sampleWalker with current_position := [1, 0], path := [[0, 0], [1, 0]] },
    sims := [[[0, 0], [1, 0]]] }

end RandomWalk

namespace RandomWalk.Mem

/-- A Python heap object: either a list of numbers (a position vector)
or a list holding references to other objects (such as `_path`). -/
inductive PyObj where
  | vec (v : List ℚ)
  | lst (rs : List ℕ)

/-- A heap: references are indices into the allocation list. -/
abbrev Heap := List PyObj

/-- Dereference (reads of a dangling reference yield an empty vector;
well-formedness below rules them out). -/
def readObj : Heap → ℕ → PyObj
  | [], _ => .vec []
  | o :: _, 0 => o
  | _ :: h, n + 1 => readObj h n

/-- In-place mutation of the object at a reference, as performed by
Python statements like `p[0] = v` on a list object. -/
def setObj : Heap → ℕ → PyObj → Heap
  | [], _, _ => []
  | _ :: h, 0, o => o :: h
  | x :: h, n + 1, o => x :: setObj h n o

/-- Allocate a fresh object, returning the extended heap and its
reference. -/
def allocObj (h : Heap) (o : PyObj) : Heap × ℕ := (h ++ [o], h.length)

/-- A walker as seen by the heap model: `_path` is a reference to a list
object whose elements are references to vectors, `_current_position` a
reference to a vector. -/
structure WalkerRefs where
  pathRef : ℕ
  curRef : ℕ

/-- The element references held by a list object. -/
def elemRefs (h : Heap) (r : ℕ) : List ℕ :=
  match readObj h r with
  | .lst rs => rs
  | .vec _ => []

/-- The element references of the walker's `_path` list object. -/
def pathElems (h : Heap) (w : WalkerRefs) : List ℕ := elemRefs h w.pathRef

/-- The numeric contents of a vector object. -/
def vecVal (h : Heap) (r : ℕ) : List ℚ :=
  match readObj h r with
  | .vec v => v
  | .lst _ => []

/-- The walker's trajectory, by value. -/
def pathVals (h : Heap) (w : WalkerRefs) : List (List ℚ) :=
  (pathElems h w).map (vecVal h)

/-- The walker's current position, by value. -/
def curVal (h : Heap) (w : WalkerRefs) : List ℚ := vecVal h w.curRef

/-- The values held by a list object: its element vectors, by value. -/
def lstVals (h : Heap) (r : ℕ) : List (List ℚ) :=
  match readObj h r with
  | .lst rs => rs.map (vecVal h)
  | .vec _ => []

/-- `Walker.get_path()` = `self._path[:]`: allocates a NEW list object
whose elements are the SAME references as the internal trajectory's. -/
def get_path (h : Heap) (w : WalkerRefs) : Heap × ℕ :=
  allocObj h (.lst (pathElems h w))

/-- `Walker.get_current_position()` = `self._current_position[:]`:
allocates a new vector carrying copies of the numeric entries. -/
def get_current_position (h : Heap) (w : WalkerRefs) : Heap × ℕ :=
  allocObj h (.vec (curVal h w))

/-- Does the reference point at a vector object? -/
def isVecRef (h : Heap) (r : ℕ) : Bool :=
  match readObj h r with
  | .vec _ => true
  | .lst _ => false

/-- Does the reference point at a list object? -/
def isLstRef (h : Heap) (r : ℕ) : Bool :=
  match readObj h r with
  | .lst _ => true
  | .vec _ => false

/-- Well-formedness of a walker in a heap: `_path` references a list
object of in-bounds vector references and `_current_position` an
in-bounds vector object. -/
def wfWalker (h : Heap) (w : WalkerRefs) : Bool :=
  decide (w.pathRef < h.length) && decide (w.curRef < h.length) &&
  isLstRef h w.pathRef &&
  (elemRefs h w.pathRef).all (fun r => decide (r < h.length) && isVecRef h r) &&
  isVecRef h w.curRef

/-- A two-object heap: a single origin vector at reference 0 and the
walker's `_path` list at reference 1 (the freshly constructed walker,
whose `_path[0]` and `_current_position` are the same object). -/
def cexHeap : Heap := [.vec [0, 0], .lst [0]]

/-- The walker living in `cexHeap`. -/
def cexWalker : WalkerRefs := { pathRef := 1, curRef := 0 }

end RandomWalk.Mem

namespace RandomWalk

theorem sqNorm_nonneg (v : List ℚ) : 0 ≤ sqNorm v := by
  unfold sqNorm
  induction v with
  | nil => simp
  | cons x xs ih =>
      simp only [List.map_cons, List.sum_cons]
      have : 0 ≤ x * x := mul_self_nonneg x
      linarith

/-- For a positive bound, the source's comparison of a Euclidean norm
`sqrt s` against `r` agrees with the embedded squared comparison. -/
theorem sq_lt_iff_lt_sqrt (s r : ℚ) (hr : 0 < r) :
    r * r < s ↔ (r : ℝ) < Real.sqrt (s : ℝ) := by
  rw [show ((r : ℝ) < Real.sqrt (s : ℝ)) ↔ ((r : ℝ) ^ 2 < (s : ℝ)) from
    Real.lt_sqrt (by positivity)]
  constructor
  · intro h
    have : ((r * r : ℚ) : ℝ) < ((s : ℚ) : ℝ) := by exact_mod_cast h
    calc (r : ℝ) ^ 2 = ((r : ℚ) : ℝ) * ((r : ℚ) : ℝ) := by ring
    _ < (s : ℝ) := by exact_mod_cast this
  · intro h
    have : ((r * r : ℚ) : ℝ) < ((s : ℚ) : ℝ) := by
      calc ((r * r : ℚ) : ℝ) = (r : ℝ) ^ 2 := by push_cast; ring
      _ < (s : ℝ) := h
    exact_mod_cast this

/-- C7: `exited_radius(position, radius)` fails with InvalidArgument iff
`radius ≤ 0`; otherwise it returns true iff the Euclidean norm of
`position` strictly exceeds `radius` (so a boundary point with norm equal
to the radius counts as inside). -/
theorem C7_exited_radius (p : List ℚ) (r : ℚ) :
    (isError (exited_radius p r) = true ↔ r ≤ 0) ∧
    (0 < r →
      (exited_radius p r = .ok true ↔ (r : ℝ) < Real.sqrt ((sqNorm p : ℚ) : ℝ)) ∧
      (Real.sqrt ((sqNorm p : ℚ) : ℝ) = (r : ℝ) → exited_radius p r = .ok false)) := by
  constructor
  · unfold exited_radius
    by_cases h : r ≤ 0
    · simp [h, isError]
    · simp only [h, if_false]
      by_cases h2 : r * r < sqNorm p <;> simp [h2, isError, h]
  · intro hr
    have hsq := sq_lt_iff_lt_sqrt (sqNorm p) r hr
    have hnotle : ¬ r ≤ 0 := not_le.mpr hr
    constructor
    · unfold exited_radius
      simp only [hnotle, if_false]
      by_cases h2 : r * r < sqNorm p
      · simp [h2, hsq.mp h2]
      · simp only [h2, if_false]
        constructor
        · intro h; exact absurd h (by simp)
        · intro h; exact absurd (hsq.mpr h) h2
    · intro heq
      have hnotlt : ¬ r * r < sqNorm p := by
        intro hlt
        have := hsq.mp hlt
        rw [heq] at this
        exact lt_irrefl _ this
      unfold exited_radius
      simp [hnotle, hnotlt]

/-- Concrete instantiation of `C7_exited_radius`: the point `(3, 4)` with
radius `5` sits exactly on the boundary and is classified as inside. -/
theorem C7_exited_radius_witness :
    (0 : ℚ) < 5 ∧ exited_radius [3, 4] 5 = .ok false :=
  ⟨by norm_num,
    (C7_exited_radius [3, 4] 5).2 (by norm_num) |>.2 (by
      have : sqNorm [3, 4] = 25 := by norm_num [sqNorm]
      rw [this]
      have : ((25 : ℚ) : ℝ) = (5 : ℝ) ^ 2 := by norm_num
      rw [this, Real.sqrt_sq (by norm_num)]
      norm_num)⟩

/-- C6: `dist_from_axis_after(axis, n)` fails with InvalidArgument for
every axis whose Euclidean norm is not exactly 1, regardless of `n`; the
unit-length test is an exact equality with no tolerance. -/
theorem C6_dist_from_axis_non_unit (w : Walker) (axis : List ℚ) (n : ℤ)
    (hax : Real.sqrt ((sqNorm axis : ℚ) : ℝ) ≠ 1) :
    isError (dist_from_axis_after w axis n) = true := by
  have hsq : sqNorm axis ≠ 1 := by
    intro h
    apply hax
    rw [h]
    norm_num
  unfold dist_from_axis_after
  by_cases hdim : axis.length ≠ w.dim
  · simp [hdim, isError]
  · simp [hdim, hsq, isError]

/-- Concrete instantiation of `C6_dist_from_axis_non_unit`: the
dimension-matching axis `(1, 1)` has norm `sqrt 2 ≠ 1` and is rejected
even for the valid index `n = 0`. -/
theorem C6_dist_from_axis_non_unit_witness :
    isError (dist_from_axis_after sampleWalker [1, 1] 0) = true := by
  apply C6_dist_from_axis_non_unit
  have h2 : sqNorm [1, 1] = 2 := by norm_num [sqNorm]
  rw [h2]
  intro h
  have h1 : (1 : ℝ) < Real.sqrt ((2 : ℚ) : ℝ) := by
    rw [show (((2 : ℚ)) : ℝ) = (2 : ℝ) by norm_num]
    rw [show (1 : ℝ) = Real.sqrt 1 by simp]
    exact Real.sqrt_lt_sqrt (by norm_num) (by norm_num)
  rw [h] at h1
  exact lt_irrefl _ h1

theorem isOkTrue_iff (e : Except String Bool) :
    isOkTrue e = true ↔ e = .ok true := by
  cases e with
  | error s => simp [isOkTrue]
  | ok b => cases b <;> simp [isOkTrue]

/-- For a validated radius, `exited_radius` returns true exactly on the
squared-norm comparison. -/
theorem exited_radius_pos (p : List ℚ) (r : ℚ) (hr : 0 < r) :
    exited_radius p r = .ok true ↔ r * r < sqNorm p := by
  unfold exited_radius
  have : ¬ r ≤ 0 := not_le.mpr hr
  by_cases h : r * r < sqNorm p <;> simp [this, h]

/-- When no point of the list satisfies `exited_radius`, the scan loop
returns 0 from any starting offset. -/
theorem exited_from_none (r : ℚ) (l : List (List ℚ))
    (hnone : ∀ p ∈ l, exited_radius p r ≠ .ok true) :
    ∀ i, exited_radius_at_from r l i = 0 := by
  induction l with
  | nil => intro i; rfl
  | cons p rest ih =>
      intro i
      have hp : isOkTrue (exited_radius p r) ≠ true := fun hcon =>
        hnone p (by simp) ((isOkTrue_iff _).mp hcon)
      simp only [exited_radius_at_from, hp, if_false, Bool.false_eq_true]
      exact ih (fun q hq => hnone q (by simp [hq])) (i + 1)

/-- When some point of the list satisfies `exited_radius`, the scan loop
returns `offset + j` where `j` is the least satisfying index. -/
theorem exited_from_found (r : ℚ) (l : List (List ℚ)) :
    ∀ i, (∃ p ∈ l, exited_radius p r = .ok true) →
      ∃ j, j < l.length ∧ exited_radius_at_from r l i = i + j ∧
        exited_radius (l.getD j []) r = .ok true ∧
        ∀ j' < j, exited_radius (l.getD j' []) r ≠ .ok true := by
  induction l with
  | nil => simp
  | cons p rest ih =>
      intro i hex
      by_cases hp : isOkTrue (exited_radius p r) = true
      · refine ⟨0, by simp, ?_, ?_, ?_⟩
        · simp [exited_radius_at_from, hp]
        · simpa using (isOkTrue_iff _).mp hp
        · intro j' hj'; omega
      · have hex' : ∃ q ∈ rest, exited_radius q r = .ok true := by
          rcases hex with ⟨q, hq, hqt⟩
          rcases List.mem_cons.mp hq with rfl | hq'
          · exact absurd ((isOkTrue_iff _).mpr hqt) hp
          · exact ⟨q, hq', hqt⟩
        rcases ih (i + 1) hex' with ⟨j, hjlen, hres, hexit, hmin⟩
        refine ⟨j + 1, by simpa using Nat.succ_lt_succ hjlen, ?_, ?_, ?_⟩
        · simp only [exited_radius_at_from, hp, if_false, Bool.false_eq_true, hres]
          omega
        · simpa using hexit
        · intro j' hj'
          cases j' with
          | zero =>
              simpa using fun hq => hp ((isOkTrue_iff _).mpr hq)
          | succ j'' =>
              simpa using hmin j'' (by omega)

/-- C4: for a walker with a non-empty trajectory, `exited_radius_at(radius)`
fails with InvalidArgument iff `radius ≤ 0`; otherwise it returns the
smallest index whose trajectory point satisfies `exited_radius`, and 0
when no trajectory point exits the radius. -/
theorem C4_exited_radius_at (w : Walker) (r : ℚ) (hne : w.path ≠ []) :
    (isError (exited_radius_at w r) = true ↔ r ≤ 0) ∧
    (0 < r → ∀ k, exited_radius_at w r = .ok k →
      ((∀ p ∈ w.path, exited_radius p r ≠ .ok true) → k = 0) ∧
      ((∃ p ∈ w.path, exited_radius p r = .ok true) →
        exited_radius (w.path.getD k []) r = .ok true ∧
        ∀ j < k, exited_radius (w.path.getD j []) r ≠ .ok true)) := by
  have hlen : w.path.length ≠ 0 := fun h => hne (List.length_eq_zero.mp h)
  constructor
  · unfold exited_radius_at
    by_cases h : r ≤ 0
    · simp [h, isError]
    · simp [h, hlen, isError]
  · intro hr k hk
    have hnotle : ¬ r ≤ 0 := not_le.mpr hr
    have hk' : exited_radius_at_from r w.path 0 = k := by
      unfold exited_radius_at at hk
      simp only [hnotle, if_false, hlen] at hk
      exact Except.ok.inj hk
    constructor
    · intro hnone
      rw [← hk']
      exact exited_from_none r w.path hnone 0
    · intro hex
      rcases exited_from_found r w.path 0 hex with ⟨j, hjlen, hres, hexit, hmin⟩
      have : k = j := by omega
      subst this
      exact ⟨hexit, hmin⟩

/-- Concrete instantiation of `C4_exited_radius_at`: on the trajectory
`[(0,0), (3,4)]` with radius 1 the scan returns index 1, whose point
satisfies `exited_radius`. -/
theorem C4_exited_radius_at_witness :
    exited_radius (escapingWalker.path.getD 1 []) 1 = .ok true := by
  have hmem : ([3, 4] : List ℚ) ∈ escapingWalker.path := by
    simp [escapingWalker, sampleWalker]
  have hexit : exited_radius ([3, 4] : List ℚ) 1 = .ok true := by
    rw [exited_radius_pos _ _ (by norm_num)]
    norm_num [sqNorm]
  have heval : exited_radius_at escapingWalker 1 = .ok 1 := by
    have h0 : isOkTrue (exited_radius ([0, 0] : List ℚ) 1) = false := by
      have : exited_radius ([0, 0] : List ℚ) 1 = .ok false := by
        unfold exited_radius
        norm_num [sqNorm]
      rw [this]; rfl
    have h1 : isOkTrue (exited_radius ([3, 4] : List ℚ) 1) = true := by
      rw [hexit]; rfl
    unfold exited_radius_at
    norm_num [escapingWalker, sampleWalker, exited_radius_at_from, h0, h1]
  exact ((C4_exited_radius_at escapingWalker 1
      (by simp [escapingWalker, sampleWalker])).2 (by norm_num) 1 heval).2
    ⟨[3, 4], hmem, hexit⟩ |>.1

theorem sqNorm_zeroVec (d : ℕ) : sqNorm (zeroVec d) = 0 := by
  simp [sqNorm, zeroVec]

/-- The counting loop of `times_crossed_y_axis_after` computes the
number of loop indices satisfying the crossing predicate. -/
theorem crossed_loop_count (w : Walker) (l : List ℕ) : ∀ c : ℕ,
    l.foldl (fun count i =>
      if (w.path.getD i []).getD 1 0 > 0 ∧ (w.path.getD (i + 1) []).getD 1 0 ≤ 0 then
        count + 1
      else if (w.path.getD i []).getD 1 0 < 0 ∧ 0 ≤ (w.path.getD (i + 1) []).getD 1 0 then
        count + 1
      else count) c =
    c + (l.filter (fun i =>
        decide (crossing ((w.path.getD i []).getD 1 0)
                         ((w.path.getD (i + 1) []).getD 1 0)))).length := by
  induction l with
  | nil => intro c; simp
  | cons x xs ih =>
      intro c
      rw [List.foldl_cons, List.filter_cons]
      by_cases h1 : (w.path.getD x []).getD 1 0 > 0 ∧ (w.path.getD (x + 1) []).getD 1 0 ≤ 0
      · rw [if_pos h1, ih (c + 1),
          if_pos (by simp only [decide_eq_true_eq]; exact Or.inl h1), List.length_cons]
        omega
      · by_cases h2 : (w.path.getD x []).getD 1 0 < 0 ∧ 0 ≤ (w.path.getD (x + 1) []).getD 1 0
        · rw [if_neg h1, if_pos h2, ih (c + 1),
            if_pos (by simp only [decide_eq_true_eq]; exact Or.inr h2), List.length_cons]
          omega
        · rw [if_neg h1, if_neg h2, ih c,
            if_neg (by simp only [decide_eq_true_eq]; exact fun hcon => hcon.elim h1 h2)]

/-- C5: for a valid index `n` (`0 ≤ n <` trajectory length),
`times_crossed_y_axis_after(n)` returns the number of consecutive pairs
among the first `n` trajectory points whose second coordinate goes from
strictly positive to `≤ 0` or from strictly negative to `≥ 0`; an
invalid `n` fails with InvalidArgument. -/
theorem C5_times_crossed (w : Walker) (n : ℤ) :
    ((n < 0 ∨ (w.path.length : ℤ) ≤ n) ↔
      isError (times_crossed_y_axis_after w n) = true) ∧
    (0 ≤ n → n < (w.path.length : ℤ) →
      times_crossed_y_axis_after w n = .ok
        (((List.range (n.toNat - 1)).filter (fun i =>
            decide (crossing ((w.path.getD i []).getD 1 0)
                             ((w.path.getD (i + 1) []).getD 1 0)))).length)) := by
  constructor
  · unfold times_crossed_y_axis_after
    by_cases h1 : n < 0
    · simp [h1, isError]
    · by_cases h2 : (w.path.length : ℤ) ≤ n
      · simp [h1, h2, isError]
      · simp [h1, h2, isError]
  · intro hn0 hnlen
    have h1 : ¬ n < 0 := not_lt.mpr hn0
    have h2 : ¬ (w.path.length : ℤ) ≤ n := not_le.mpr hnlen
    unfold times_crossed_y_axis_after
    simp only [h1, if_false, h2]
    rw [show (n - 1).toNat = n.toNat - 1 by omega]
    rw [crossed_loop_count w (List.range (n.toNat - 1)) 0, Nat.zero_add]

/-- Concrete instantiation of `C5_times_crossed`: the trajectory
`[(0,1), (0,-1), (0,2)]` crosses the axis twice among its first 3
points. -/
theorem C5_times_crossed_witness :
    times_crossed_y_axis_after crossingWalker 3 = .ok 2 := by
  have h := (C5_times_crossed crossingWalker 3).2 (by norm_num)
    (by simp [crossingWalker, sampleWalker])
  rw [h, show Int.toNat 3 - 1 = 2 from rfl, show List.range 2 = [0, 1] from rfl]
  norm_num [crossingWalker, sampleWalker, crossing, List.filter_cons]

/-- C10: for a positive radius and a trajectory whose first point is the
origin (as produced by construction and by `hard_restart`),
`exited_radius_at` returns 0 iff no trajectory point lies strictly
outside the radius; 0 can never mean "exited at index 0" because the
origin never satisfies `exited_radius` for a positive radius. -/
theorem C10_exited_radius_at_zero (w : Walker) (r : ℚ) (hr : 0 < r)
    (hhead : w.path.head? = some (zeroVec w.dim)) :
    (exited_radius_at w r = .ok 0 ↔ ∀ p ∈ w.path, ¬ (r * r < sqNorm p)) ∧
    exited_radius (zeroVec w.dim) r = .ok false ∧
    (hard_restart w).path.head? = some (zeroVec w.dim) := by
  have hzero : exited_radius (zeroVec w.dim) r = .ok false := by
    unfold exited_radius
    have h1 : ¬ r ≤ 0 := not_le.mpr hr
    have h2 : ¬ r * r < sqNorm (zeroVec w.dim) := by
      rw [sqNorm_zeroVec]
      intro h
      exact absurd h (not_lt.mpr (le_of_lt (mul_pos hr hr)))
    simp [h1, h2]
  rcases List.head?_eq_some_iff.mp hhead with ⟨rest, hpath⟩
  have hne : w.path ≠ [] := by rw [hpath]; simp
  refine ⟨?_, hzero, by simp [hard_restart]⟩
  constructor
  · intro hres p hp hlt
    have hex : ∃ q ∈ w.path, exited_radius q r = .ok true :=
      ⟨p, hp, (exited_radius_pos p r hr).mpr hlt⟩
    rcases exited_from_found r w.path 0 hex with ⟨j, hjlen, hfrom, hexit, hmin⟩
    have hk' : exited_radius_at_from r w.path 0 = 0 := by
      unfold exited_radius_at at hres
      have h1 : ¬ r ≤ 0 := not_le.mpr hr
      have hlen : ¬ w.path.length = 0 := fun h => hne (List.length_eq_zero.mp h)
      simp only [h1, if_false, hlen] at hres
      exact Except.ok.inj hres
    have hj0 : j = 0 := by omega
    subst hj0
    have : w.path.getD 0 [] = zeroVec w.dim := by rw [hpath]; rfl
    rw [this, hzero] at hexit
    exact absurd hexit (by simp)
  · intro hnone
    have h1 : ¬ r ≤ 0 := not_le.mpr hr
    have hlen : ¬ w.path.length = 0 := fun h => hne (List.length_eq_zero.mp h)
    unfold exited_radius_at
    simp only [h1, if_false, hlen]
    rw [exited_from_none r w.path (fun p hp hcon =>
      hnone p hp ((exited_radius_pos p r hr).mp hcon)) 0]

/-- Concrete instantiation of `C10_exited_radius_at_zero`: a freshly
constructed walker never exits radius 1, and the scan reports 0. -/
theorem C10_exited_radius_at_zero_witness :
    exited_radius_at sampleWalker 1 = .ok 0 := by
  have h := (C10_exited_radius_at_zero sampleWalker 1 (by norm_num)
    (by simp [sampleWalker, zeroVec])).1
  apply h.mpr
  intro p hp
  have hp' : p = zeroVec 2 := by
    simpa [sampleWalker] using hp
  subst hp'
  rw [sqNorm_zeroVec]
  norm_num

/-- Each loop iteration of `walk` appends exactly one trajectory
point, whatever the obstacle, gate and restart branches do. -/
theorem walkIter_length (env : RandEnv) (w : Walker) (i k fuel : ℕ)
    (w' : Walker) (k' : ℕ) (h : walkIter env w i k fuel = some (w', k')) :
    w'.path.length = w.path.length + 1 := by
  unfold walkIter at h
  rcases Option.bind_eq_some.mp h with ⟨dres, hd, hf⟩
  simp only [Option.some.injEq, Prod.mk.injEq] at hf
  obtain ⟨hw, hk⟩ := hf
  subst hw
  simp

/-- The `walk` loop appends exactly one point per iteration. -/
theorem walkLoop_length (env : RandEnv) (fuel : ℕ) : ∀ (m i k : ℕ) (w w' : Walker) (k' : ℕ),
    walkLoop env fuel m i k w = some (w', k') →
    w'.path.length = w.path.length + m := by
  intro m
  induction m with
  | zero =>
      intro i k w w' k' h
      simp only [walkLoop, Option.some.injEq, Prod.mk.injEq] at h
      rw [← h.1]
      simp
  | succ m ih =>
      intro i k w w' k' h
      unfold walkLoop at h
      cases hit : walkIter env w i k fuel with
      | none => rw [hit] at h; exact absurd h (by simp)
      | some a =>
          obtain ⟨w1, k1⟩ := a
          rw [hit] at h
          have h1 := walkIter_length env w i k fuel w1 k1 hit
          have h2 := ih (i + 1) k1 w1 w' k' h
          omega

/-- C3: `walk(steps)` fails with InvalidArgument iff `steps ≤ 0`; for
`steps ≥ 1`, whenever it returns, the trajectory has grown by exactly
`steps` points (the restart policy resets the cursor but never changes
the number of appended points). -/
theorem C3_walk (env : RandEnv) (fuel : ℕ) (w : Walker) (steps : ℤ) (k : ℕ) :
    (steps ≤ 0 ↔ isError (walk env fuel w steps k) = true) ∧
    (1 ≤ steps → ∀ w' k', walk env fuel w steps k = .ok (some (w', k')) →
      (w'.path.length : ℤ) = (w.path.length : ℤ) + steps) := by
  constructor
  · unfold walk
    by_cases h : steps ≤ 0 <;> simp [h, isError]
  · intro hs w' k' h
    unfold walk at h
    have hns : ¬ steps ≤ 0 := by omega
    simp only [hns, if_false] at h
    have := walkLoop_length env fuel steps.toNat 0 k w w' k' (Except.ok.inj h)
    omega

/-- Concrete instantiation of `C3_walk`: two sample steps grow the
fresh walker's trajectory from 1 point to 3. -/
theorem C3_walk_witness :
    (sampleWalked.path.length : ℤ) = (sampleWalker.path.length : ℤ) + 2 := by
  have heval : walk sampleEnv 0 sampleWalker 2 0 = .ok (some (sampleWalked, 4)) := by
    unfold walk
    norm_num
    simp [walkLoop, walkIter, sampleEnv, sampleWalker, sampleWalked, zeroVec, dodge]
  exact (C3_walk sampleEnv 0 sampleWalker 2 0).2 (by norm_num) sampleWalked 4 heval

/-- A `walk` call with a positive step count can never raise. -/
theorem walk_no_error (env : RandEnv) (fuel : ℕ) (w : Walker) (steps : ℤ) (k : ℕ)
    (hs : 1 ≤ steps) : ∀ e, walk env fuel w steps k ≠ .error e := by
  intro e h
  unfold walk at h
  have hns : ¬ steps ≤ 0 := by omega
  simp [hns] at h

/-- Every completed iteration of the trial loop of `run` records exactly
one trajectory; the early-abort branch is never taken when
`num_of_steps ≥ 1`. -/
theorem runLoop_length (env : RandEnv) (fuel : ℕ) : ∀ (m k : ℕ) (s : Simulation),
    1 ≤ s.num_of_steps → ∀ s', runLoop env fuel m k s = some s' →
    s'.sims.length = s.sims.length + m := by
  intro m
  induction m with
  | zero =>
      intro k s hs s' h
      simp only [runLoop, Option.some.injEq] at h
      rw [← h]
      omega
  | succ m ih =>
      intro k s hs s' h
      unfold runLoop at h
      cases hw : walk env fuel (hard_restart s.walker) s.num_of_steps k with
      | error e => exact absurd hw (walk_no_error env fuel _ _ k hs e)
      | ok o =>
          cases o with
          | none => rw [hw] at h; exact absurd h (by simp)
          | some a =>
              obtain ⟨w', k'⟩ := a
              rw [hw] at h
              have := ih k' { s with walker := w', sims := s.sims ++ [w'.path] }
                (by simpa using hs) s' h
              simp only [List.length_append, List.length_cons, List.length_nil] at this
              omega

/-- Fields of a successfully constructed `Simulation`. -/
theorem mkSimulation_ok (t n : ℤ) (w : Walker) (a : List ℚ) (r : ℚ) (s : Simulation)
    (h : mkSimulation t n w a r = .ok s) :
    0 < t ∧ 0 < n ∧ s.times_to_run = t ∧ s.num_of_steps = n ∧ s.sims = [] := by
  unfold mkSimulation at h
  split_ifs at h with h1 h2 h3 h4 h5 h6
  all_goals cases h
  exact ⟨by omega, by omega, rfl, rfl, rfl⟩

/-- C9: for a successfully constructed `Simulation`, the walker's
`walk(steps)` call inside `run()` can never raise — the early-abort
branch is dead code — and whenever `run()` returns, exactly
`times_to_run` trajectories are recorded, so `get_times_run()` equals
`times_to_run`. -/
theorem C9_run (t n : ℤ) (w : Walker) (a : List ℚ) (r : ℚ) (s : Simulation)
    (hmk : mkSimulation t n w a r = .ok s) (env : RandEnv) (fuel : ℕ) :
    (∀ (w0 : Walker) (k : ℕ) (e : String), walk env fuel w0 s.num_of_steps k ≠ .error e) ∧
    (∀ s', run env fuel s = some s' →
      get_times_run s' = s.times_to_run.toNat ∧ (get_times_run s' : ℤ) = t) := by
  obtain ⟨ht, hn, httr, hnum, hsims⟩ := mkSimulation_ok t n w a r s hmk
  have hnum1 : 1 ≤ s.num_of_steps := by omega
  constructor
  · intro w0 k e
    exact walk_no_error env fuel w0 s.num_of_steps k hnum1 e
  · intro s' h
    have hlen := runLoop_length env fuel s.times_to_run.toNat 0 s hnum1 s' h
    rw [hsims] at hlen
    simp only [List.length_nil, Nat.zero_add] at hlen
    refine ⟨by simpa [get_times_run] using hlen, ?_⟩
    rw [get_times_run, hlen, httr]
    omega

/-- Concrete instantiation of `C9_run`: `Simulation(1, 1, ...)` runs one
trial and records one trajectory. -/
theorem C9_run_witness :
    get_times_run sampleSimRun = 1 ∧ (get_times_run sampleSimRun : ℤ) = 1 := by
  have hmk : mkSimulation 1 1 sampleWalker [0, 1] 1 = .ok sampleSim := by
    unfold mkSimulation
    norm_num [sampleWalker, sampleSim]
  have hrun : run sampleEnv 0 sampleSim = some sampleSimRun := by
    unfold run
    simp [runLoop, walk, walkLoop, walkIter, hard_restart, sampleEnv, sampleSim,
      sampleWalker, sampleSimRun, zeroVec, dodge]
  exact (C9_run 1 1 sampleWalker [0, 1] 1 sampleSim hmk sampleEnv 0).2 sampleSimRun hrun

/-- C1: the spec promises that after a successful `run()` the average
path has exactly `steps` points, but the accumulator-initialization loop
of `get_avg_path` appears twice in the source, so the reachable state of
`Simulation(1, 1, sampleWalker, [0, 1], 1)` after `run()` yields an
average path of `2 * steps = 2` points instead of `steps = 1`.  (The
per-index values are still the coordinate-wise means, with the
zero-initialized tail left untouched.) -/
theorem C1_get_avg_path_length_bug :
    mkSimulation 1 1 sampleWalker [0, 1] 1 = .ok sampleSim ∧
    run sampleEnv 0 sampleSim = some sampleSimRun ∧
    get_avg_path sampleSimRun = .ok [[0, 0], [1, 0]] ∧
    ([[0, 0], [1, 0]] : List (List ℚ)).length = 2 ∧
    sampleSim.num_of_steps = 1 := by
  refine ⟨?_, ?_, ?_, rfl, rfl⟩
  · unfold mkSimulation
    norm_num [sampleWalker, sampleSim]
  · unfold run
    simp [runLoop, walk, walkLoop, walkIter, hard_restart, sampleEnv, sampleSim,
      sampleWalker, sampleSimRun, zeroVec, dodge]
  · unfold get_avg_path
    norm_num [sampleSimRun, sampleSim, sampleWalker, addInto, List.replicate]
    exact List.cons_ne_nil _ _

/-- C8: constructing a `Simulation` fails with InvalidArgument iff
`times_to_run ≤ 0`, or `steps ≤ 0`, or `radius ≤ 0`, or the axis is
empty, or the axis length differs from the walker's dimension, or the
walker's `restart_every` exceeds `steps`; on success the result
collection starts empty. -/
theorem C8_mkSimulation (t n : ℤ) (w : Walker) (a : List ℚ) (r : ℚ) :
    (isError (mkSimulation t n w a r) = true ↔
      (t ≤ 0 ∨ n ≤ 0 ∨ r ≤ 0 ∨ a = [] ∨ a.length ≠ w.dim ∨ w.restart_every > n)) ∧
    (∀ s, mkSimulation t n w a r = .ok s → s.sims = []) := by
  unfold mkSimulation
  constructor
  · split_ifs with h1 h2 h3 h4 h5 h6 <;>
      simp_all [isError, List.length_eq_zero]
  · intro s hs
    split_ifs at hs
    all_goals cases hs
    all_goals rfl

/-- Concrete instantiation of `C8_mkSimulation`: `times_to_run = 0` is
rejected, and a well-formed construction starts with no recorded
trajectories. -/
theorem C8_mkSimulation_witness :
    isError (mkSimulation 0 5 sampleWalker [0, 1] 1) = true ∧
    ∀ s, mkSimulation 3 5 sampleWalker [0, 1] 1 = .ok s → s.sims = [] :=
  ⟨(C8_mkSimulation 0 5 sampleWalker [0, 1] 1).1.mpr (Or.inl (by norm_num)),
   fun s hs => (C8_mkSimulation 3 5 sampleWalker [0, 1] 1).2 s hs⟩

end RandomWalk

namespace RandomWalk.Mem

theorem readObj_append (h : Heap) (o : PyObj) :
    ∀ r, r < h.length → readObj (h ++ [o]) r = readObj h r := by
  induction h with
  | nil => intro r hr; exact absurd hr (by simp)
  | cons x xs ih =>
      intro r hr
      cases r with
      | zero => rfl
      | succ n => exact ih n (by simpa using hr)

theorem readObj_append_self (h : Heap) (o : PyObj) :
    readObj (h ++ [o]) h.length = o := by
  induction h with
  | nil => rfl
  | cons x xs ih => exact ih

theorem readObj_setObj_ne (h : Heap) (o : PyObj) :
    ∀ r m, r ≠ m → readObj (setObj h m o) r = readObj h r := by
  induction h with
  | nil => intro r m _; rfl
  | cons x xs ih =>
      intro r m hne
      cases m with
      | zero =>
          cases r with
          | zero => exact absurd rfl hne
          | succ n => rfl
      | succ s =>
          cases r with
          | zero => rfl
          | succ n => exact ih n s (fun hcon => hne (by rw [hcon]))

theorem isVecRef_iff (h : Heap) (r : ℕ) :
    isVecRef h r = true ↔ ∃ v, readObj h r = .vec v := by
  unfold isVecRef
  cases readObj h r <;> simp

theorem isLstRef_elemRefs (h : Heap) (r : ℕ) (hl : isLstRef h r = true) :
    readObj h r = .lst (elemRefs h r) := by
  unfold isLstRef at hl
  unfold elemRefs
  cases hro : readObj h r with
  | vec v => rw [hro] at hl; simp at hl
  | lst rs => rfl

/-- Unpacking `wfWalker` into its propositional content. -/
theorem wfWalker_spec (h : Heap) (w : WalkerRefs) (hwf : wfWalker h w = true) :
    w.pathRef < h.length ∧ w.curRef < h.length ∧
    readObj h w.pathRef = .lst (pathElems h w) ∧
    (∀ r ∈ pathElems h w, r < h.length) ∧
    ∃ v, readObj h w.curRef = .vec v := by
  unfold wfWalker at hwf
  simp only [Bool.and_eq_true, decide_eq_true_eq, List.all_eq_true] at hwf
  obtain ⟨⟨⟨⟨h1, h2⟩, h3⟩, h4⟩, h5⟩ := hwf
  refine ⟨h1, h2, isLstRef_elemRefs h w.pathRef h3, ?_, (isVecRef_iff h w.curRef).mp h5⟩
  intro r hr
  have := h4 r hr
  simp only [Bool.and_eq_true, decide_eq_true_eq] at this
  exact this.1

theorem vecVal_same (h h' : Heap) (r : ℕ)
    (hsame : readObj h' r = readObj h r) : vecVal h' r = vecVal h r := by
  unfold vecVal
  rw [hsame]

/-- A heap transformation that leaves every in-bounds object unchanged
preserves the walker's trajectory values and its element references. -/
theorem pathVals_same (h h' : Heap) (w : WalkerRefs) (hwf : wfWalker h w = true)
    (hsame : ∀ r, r < h.length → readObj h' r = readObj h r) :
    pathVals h' w = pathVals h w ∧ pathElems h' w = pathElems h w := by
  obtain ⟨hp, _, hrs, hall, _⟩ := wfWalker_spec h w hwf
  have hel : pathElems h' w = pathElems h w := by
    unfold pathElems elemRefs
    rw [hsame w.pathRef hp, hrs]
  refine ⟨?_, hel⟩
  unfold pathVals
  rw [hel]
  apply List.map_congr_left
  intro r hr
  exact vecVal_same h h' r (hsame r (hall r hr))

theorem curVal_same (h h' : Heap) (w : WalkerRefs) (hwf : wfWalker h w = true)
    (hsame : ∀ r, r < h.length → readObj h' r = readObj h r) :
    curVal h' w = curVal h w := by
  obtain ⟨_, hc, _, _, _⟩ := wfWalker_spec h w hwf
  exact vecVal_same h h' w.curRef (hsame w.curRef hc)

/-- C2 (amended): `get_path` returns a SHALLOW copy — the returned list
object equals the trajectory by value, the call itself leaves the walker
untouched, a second call is deep-equal to the first, and overwriting the
returned (fresh) outer list object does not affect the walker; but its
element slots hold the walker's own vector references, so in-place
mutation of an element vector is visible in the trajectory (see the
counterexample).  `get_current_position` returns a genuine by-value
copy: overwriting it changes neither the cursor value nor the
trajectory. -/
theorem C2_get_path_shallow_copy (h : Heap) (w : WalkerRefs)
    (hwf : wfWalker h w = true) :
    lstVals (get_path h w).1 (get_path h w).2 = pathVals h w ∧
    pathVals (get_path h w).1 w = pathVals h w ∧
    lstVals (get_path (get_path h w).1 w).1 (get_path (get_path h w).1 w).2 =
      lstVals (get_path h w).1 (get_path h w).2 ∧
    (∀ rs', pathVals (setObj (get_path h w).1 (get_path h w).2 (.lst rs')) w =
      pathVals h w) ∧
    elemRefs (get_path h w).1 (get_path h w).2 = pathElems h w ∧
    (∀ v',
      curVal (setObj (get_current_position h w).1 (get_current_position h w).2 (.vec v')) w
        = curVal h w ∧
      pathVals (setObj (get_current_position h w).1 (get_current_position h w).2 (.vec v')) w
        = pathVals h w) := by
  obtain ⟨hp, hc, hrs, hall, _⟩ := wfWalker_spec h w hwf
  simp only [get_path, get_current_position, allocObj]
  have hsame1 : ∀ r, r < h.length →
      readObj (h ++ [PyObj.lst (pathElems h w)]) r = readObj h r :=
    readObj_append h _
  have hone : lstVals (h ++ [PyObj.lst (pathElems h w)]) h.length = pathVals h w := by
    unfold lstVals
    rw [readObj_append_self]
    unfold pathVals
    apply List.map_congr_left
    intro r hr
    exact vecVal_same h _ r (hsame1 r (hall r hr))
  refine ⟨hone, (pathVals_same h _ w hwf hsame1).1, ?_, ?_, ?_, ?_⟩
  · -- second call, on the once-extended heap
    have hel1 : pathElems (h ++ [PyObj.lst (pathElems h w)]) w = pathElems h w :=
      (pathVals_same h _ w hwf hsame1).2
    rw [hel1]
    have hsame2 : ∀ r, r < h.length →
        readObj ((h ++ [PyObj.lst (pathElems h w)]) ++ [PyObj.lst (pathElems h w)]) r
          = readObj h r := by
      intro r hr
      rw [readObj_append _ _ r (by simp; omega), hsame1 r hr]
    have htwo : lstVals ((h ++ [PyObj.lst (pathElems h w)]) ++ [PyObj.lst (pathElems h w)])
        (h ++ [PyObj.lst (pathElems h w)]).length = pathVals h w := by
      unfold lstVals
      rw [readObj_append_self]
      unfold pathVals
      apply List.map_congr_left
      intro r hr
      exact vecVal_same h _ r (hsame2 r (hall r hr))
    rw [htwo, hone]
  · -- overwriting the fresh outer list object
    intro rs'
    apply (pathVals_same h _ w hwf _).1
    intro r hr
    rw [readObj_setObj_ne _ _ r h.length (by omega), hsame1 r hr]
  · -- the element slots are shared
    unfold elemRefs
    rw [readObj_append_self]
  · -- get_current_position is a by-value copy
    intro v'
    have hsame3 : ∀ r, r < h.length →
        readObj (setObj (h ++ [PyObj.vec (curVal h w)]) h.length (.vec v')) r
          = readObj h r := by
      intro r hr
      rw [readObj_setObj_ne _ _ r h.length (by omega), readObj_append h _ r hr]
    exact ⟨curVal_same h _ w hwf hsame3, (pathVals_same h _ w hwf hsame3).1⟩

/-- C2 counterexample: `get_path` is `self._path[:]`, a shallow copy.
On the heap of a freshly constructed walker, the returned sequence's
single element slot is the walker's own vector object (reference 0);
mutating that vector in place rewrites the walker's internal trajectory
from `[[0, 0]]` to `[[5, 5]]`, so mutating the element vectors of the
returned sequence does change the walker — the claim fails at this
input. -/
theorem C2_get_path_deep_copy_cex :
    elemRefs (get_path cexHeap cexWalker).1 (get_path cexHeap cexWalker).2 = [0] ∧
    pathVals cexHeap cexWalker = [[0, 0]] ∧
    pathVals (setObj (get_path cexHeap cexWalker).1 0 (.vec [5, 5])) cexWalker = [[5, 5]] ∧
    ([[5, 5]] : List (List ℚ)) ≠ [[0, 0]] := by
  refine ⟨rfl, rfl, rfl, ?_⟩
  intro hcon
  have := List.head_eq_of_cons_eq hcon
  have h5 : (5 : ℚ) = 0 := List.head_eq_of_cons_eq this
  norm_num at h5

/-- Concrete instantiation of `C2_get_path_shallow_copy` on the
fresh-walker heap. -/
theorem C2_get_path_shallow_copy_witness :
    wfWalker cexHeap cexWalker = true ∧
    lstVals (get_path cexHeap cexWalker).1 (get_path cexHeap cexWalker).2 =
      pathVals cexHeap cexWalker :=
  ⟨rfl, (C2_get_path_shallow_copy cexHeap cexWalker rfl).1⟩

end RandomWalk.Mem
